import Mathlib

/-!
# Formal model of the snmp-monitor-isps core

This file gives a shallow embedding, in Lean 4, of the core of the
`snmp-monitor-isps` repository and proves the specification's claims about it.

The embedded pieces are:

* the HTTP Digest codec of `src/lib/api-client.ts`
  (`parseDigestChallenge` consumers, `buildDigestHeader`);
* the REST acquisition pipeline of `src/lib/api-client.ts`
  (`getWanStatuses`): challenge-header selection, record mapping;
* the SNMP acquisition pipeline of `src/lib/snmp-client.ts`
  (`toNumber`, index resolution, batched-GET slicing, status building);
* the state tracker of `src/lib/isp-tracker.ts`
  (`processStatuses`, `getTrackedStatuses`);
* the dashboard's bandwidth computation of
  `src/app/isp-status-dashboard.tsx` (`calculateBandwidth`).

Modelling conventions: network responses (HTTP responses, SNMP varbind
lists) are explicit inputs; the current wall-clock time is an explicit
parameter; JavaScript numbers are modelled as `Int` where the source only
does integer arithmetic and as `Rat` where it divides; JavaScript
exceptions are modelled with `Except`; the MD5 primitive from node's
`crypto` module is an abstract function parameter `md5 : String → String`
(its output feeds only into strings, never into control flow).
-/

/-! ## JavaScript string primitives

JS `String.prototype.includes`, `toUpperCase`, `toLowerCase` restricted to
the ASCII range, which is the range the source ever feeds them. -/

/-- Does `hay` start with `needle`? (helper for substring containment). -/
def headMatch : List Char → List Char → Bool
  | [], _ => true
  | _ :: _, [] => false
  | c :: cs, d :: ds => c = d && headMatch cs ds

/-- Does `hay` contain `needle` as a contiguous run? (JS `includes`). -/
def listHas (needle : List Char) : List Char → Bool
  | [] => needle.isEmpty
  | d :: ds => headMatch needle (d :: ds) || listHas needle ds

/-- JS `hay.includes(needle)`. -/
def strHas (hay needle : String) : Bool := listHas needle.data hay.data

/-- JS `s.toUpperCase()` (ASCII). -/
def jsToUpper (s : String) : String := String.mk (s.data.map Char.toUpper)

/-- JS `s.toLowerCase()` (ASCII). -/
def jsToLower (s : String) : String := String.mk (s.data.map Char.toLower)

/-! ## Association lists

JS plain objects used as string-keyed (or number-keyed) maps:
assignment overwrites in place or appends at the end, `Object.keys`
preserves insertion order. -/

/-- First-match lookup in an association list (JS `obj[k]`). -/
def alookup {κ β : Type} [DecidableEq κ] (k : κ) : List (κ × β) → Option β
  | [] => none
  | (k', v) :: rest => if k' = k then some v else alookup k rest

/-- Update-or-append in an association list (JS `obj[k] = v`). -/
def aset {κ β : Type} [DecidableEq κ] (k : κ) (v : β) : List (κ × β) → List (κ × β)
  | [] => [(k, v)]
  | (k', w) :: rest => if k' = k then (k, v) :: rest else (k', w) :: aset k v rest

/-! ## Digest Auth Codec (`src/lib/api-client.ts`, `buildDigestHeader`)

The codec's random `cnonce` (`crypto.randomBytes(16).toString("hex")`) is an
input here; the `md5` hash is an abstract `String → String` parameter. -/

/-- A parsed digest challenge. The source stores challenges as a
string map; the codec reads the `realm`, `nonce`, `qop` and (optionally)
`opaque` directives, which is what this structure carries (the field
`opaq` models the `opaque` directive). -/
structure DigestChallenge where
  realm : String
  nonce : String
  qop : String
  opaq : Option String := none
deriving Repr, DecidableEq

/-- One lowercase hexadecimal digit, as produced by JS `n.toString(16)`. -/
def hexDigitChar (n : Nat) : Char :=
  if n < 10 then Char.ofNat (48 + n) else Char.ofNat (87 + n)

/-- Lowercase hexadecimal digits of `n`, most significant first
(JS `n.toString(16)` for a nonnegative integer). -/
def hexDigits (n : Nat) : List Char :=
  if _h : n < 16 then [hexDigitChar n]
  else hexDigits (n / 16) ++ [hexDigitChar (n % 16)]
termination_by n
decreasing_by exact Nat.div_lt_self (by omega) (by omega)

/-- JS `l.padStart(8, "0")` on a digit list. -/
def padStart8Zero (l : List Char) : List Char :=
  List.replicate (8 - l.length) '0' ++ l

/-- The nonce-count rendering `nc.toString(16).padStart(8, "0")`. -/
def ncString (nc : Nat) : String := String.mk (padStart8Zero (hexDigits nc))

/-- The digest `response` directive value:
`md5(ha1 : nonce : ncStr : cnonce : qop : ha2)` with
`ha1 = md5(username:realm:password)` and `ha2 = md5(method:uri)`. -/
def digestResponse (md5 : String → String) (method uri username password : String)
    (challenge : DigestChallenge) (nc : Nat) (cnonce : String) : String :=
  let ncStr := ncString nc
  let ha1 := md5 (username ++ ":" ++ challenge.realm ++ ":" ++ password)
  let ha2 := md5 (method ++ ":" ++ uri)
  md5 (ha1 ++ ":" ++ challenge.nonce ++ ":" ++ ncStr ++ ":" ++ cnonce ++ ":" ++
    challenge.qop ++ ":" ++ ha2)

/-- JS `array.join(", ")`. -/
def joinComma : List String → String
  | [] => ""
  | [s] => s
  | s :: rest => s ++ ", " ++ joinComma rest

/-- `buildDigestHeader` from `src/lib/api-client.ts`: assembles the
`Authorization: Digest ...` header. The source appends `""` for a missing
`opaque` directive and drops it with `.filter(Boolean)`; here the optional
element is appended conditionally, which produces the same list. -/
def buildDigestHeader (md5 : String → String) (method uri username password : String)
    (challenge : DigestChallenge) (nc : Nat) (cnonce : String) : String :=
  let ncStr := ncString nc
  let response := digestResponse md5 method uri username password challenge nc cnonce
  joinComma ([
    "Digest username=\"" ++ username ++ "\"",
    "realm=\"" ++ challenge.realm ++ "\"",
    "nonce=\"" ++ challenge.nonce ++ "\"",
    "uri=\"" ++ uri ++ "\"",
    "algorithm=MD5",
    "qop=" ++ challenge.qop,
    "nc=" ++ ncStr,
    "cnonce=\"" ++ cnonce ++ "\"",
    "response=\"" ++ response ++ "\""] ++
    (match challenge.opaq with
     | some o => ["opaque=\"" ++ o ++ "\""]
     | none => []))

/-- Is `c` a lowercase hexadecimal digit character? -/
def isHexChar (c : Char) : Bool :=
  (48 ≤ c.toNat && c.toNat ≤ 57) || (97 ≤ c.toNat && c.toNat ≤ 102)

/-! ## Normalized interface status (`IspInterfaceStatus`)

The facade type from `src/lib/index.ts` / `src/lib/api-client.ts` /
`src/lib/snmp-client.ts`: REST leaves the SNMP-only fields absent
(`none`); SNMP always fills the counter fields. -/

/-- Normalized per-interface, per-poll status record. -/
structure IspInterfaceStatus where
  name : String
  linkUp : Option Bool
  ipAddress : Option String := none
  subnetMask : Option String := none
  linkSpeed : Option String := none
  ipMode : Option String := none
  zone : Option String := none
  comment : Option String := none
  macAddress : Option String := none
  mtu : Option Int := none
  bytesIn : Option Int := none
  bytesOut : Option Int := none
  packetsIn : Option Int := none
  packetsOut : Option Int := none
  errorsIn : Option Int := none
  errorsOut : Option Int := none
  lastChange : Option Int := none
deriving Repr, DecidableEq

/-! ## REST Acquisition Client (`src/lib/api-client.ts`, `getWanStatuses`) -/

/-- One JSON record of the interface-status payload; only the fields the
mapper reads are carried, each optional (`undefined`/`null` ↦ `none`).
`interfaceField` models the JSON key `interface`. -/
structure JsonRec where
  name : Option String := none
  interfaceField : Option String := none
  link_status : Option String := none
  status : Option String := none
  ip_address : Option String := none
  ip : Option String := none
  subnet_mask : Option String := none
  ip_mode : Option String := none
  zone : Option String := none
  comment : Option String := none
deriving Repr, DecidableEq

/-- `toBool` from `src/lib/api-client.ts`: substring classification of a
status string; non-string (absent) values yield `none` (unknown).
(Named `toBoolJs` because `toBool` collides with a Mathlib name.) -/
def toBoolJs (v : Option String) : Option Bool :=
  match v with
  | none => none
  | some s =>
    let t := jsToLower s
    if strHas t "up" then some true
    else if strHas t "down" then some false
    else none

/-- The record identifier `rec?.name ?? rec?.interface`. -/
def jsonIdent (rec : JsonRec) : Option String :=
  match rec.name with
  | some s => some s
  | none => rec.interfaceField

/-- The identifier actually kept by the `!name` guard: a present,
non-empty (non-falsy) identifier. -/
def keptIdent (rec : JsonRec) : Option String :=
  match jsonIdent rec with
  | none => none
  | some s => if s = "" then none else some s

/-- The per-record mapping step of `getWanStatuses`: skip records whose
(uppercased) identifier is missing, falsy, or not in the wanted set;
otherwise normalize. -/
def restMapRecord (wanted : List String) (rec : JsonRec) : Option IspInterfaceStatus :=
  match keptIdent rec with
  | none => none
  | some s =>
    if wanted.contains (jsToUpper s) then
      some { name := jsToUpper s
             linkUp := toBoolJs (match rec.link_status with
                               | some v => some v
                               | none => rec.status)
             ipAddress := match rec.ip_address with
                          | some v => some v
                          | none => rec.ip
             subnetMask := rec.subnet_mask
             linkSpeed := rec.status
             ipMode := rec.ip_mode
             zone := rec.zone
             comment := rec.comment }
    else none

/-- The record list mapping of `getWanStatuses`
(`records.map(...).filter(Boolean)`). -/
def restMapRecords (wanted : List String) (records : List JsonRec) : List IspInterfaceStatus :=
  records.filterMap (restMapRecord wanted)

/-- The parsed JSON body of the interface-status response: a bare array,
an object with an `interfaces` array, or any other JSON shape. -/
inductive RestBody where
  | arrBody (records : List JsonRec)
  | objBody (records : List JsonRec)
  | otherShape
deriving Repr, DecidableEq

/-- Shape tolerance of `getWanStatuses`:
`Array.isArray(json) ? json : Array.isArray(json?.interfaces) ? json.interfaces : []`. -/
def extractRecords : RestBody → List JsonRec
  | .arrBody rs => rs
  | .objBody rs => rs
  | .otherShape => []

/-- An HTTP response as the REST client consumes it: the numeric status
code, the `ok` flag (status in 200–299), and the parsed JSON body. -/
structure RestResponse where
  status : Nat
  ok : Bool
  body : RestBody
deriving Repr, DecidableEq

/-- Challenge-header selection of `getWanStatuses`:
`authHeaders.find(h => h.includes("algorithm=MD5")) || authHeaders[0]`,
then `if (!wwwAuth || !wwwAuth.toLowerCase().includes("digest")) throw`. -/
def selectWwwAuth (authHeaders : List String) : Except String String :=
  let found := authHeaders.find? (fun h => strHas h "algorithm=MD5")
  let wwwAuth := match found with
    | some h => if h = "" then authHeaders.head? else some h
    | none => authHeaders.head?
  match wwwAuth with
  | none => Except.error "Expected digest authentication challenge"
  | some h =>
    if h = "" then Except.error "Expected digest authentication challenge"
    else if strHas (jsToLower h) "digest" then Except.ok h
    else Except.error "Expected digest authentication challenge"

/-- The control flow of `getWanStatuses` as a function of the three HTTP
responses: the `WWW-Authenticate` headers of the challenge response, the
authenticated auth response, and the interface-status response. The two
`Authorization` headers built from the selected challenge only shape the
outbound requests, so they do not appear in the result. A JS exception is
an `Except.error`. -/
def getWanStatusesREST (wanted : List String) (authHeaders : List String)
    (authResponse : RestResponse) (statusResponse : RestResponse) :
    Except String (List IspInterfaceStatus) :=
  match selectWwwAuth authHeaders with
  | Except.error e => Except.error e
  | Except.ok _ =>
    if !authResponse.ok then Except.error "Auth failed"
    else Except.ok (restMapRecords wanted (extractRecords statusResponse.body))

/-! ## SNMP Acquisition Client (`src/lib/snmp-client.ts`) -/

/-- A value carried by an SNMP varbind as the `net-snmp` library delivers
it to the client: a JS number, a BigInt, a raw byte buffer, a string, or
null/undefined. -/
inductive SnmpValue where
  | num (n : Int)
  | bigint (n : Int)
  | buf (bytes : List Nat)
  | str (s : String)
  | null
deriving Repr, DecidableEq

/-- `toNumber` from `src/lib/snmp-client.ts`: normalize a counter value;
byte buffers are folded big-endian base 256; anything else is 0. -/
def toNumber : SnmpValue → Int
  | .num n => n
  | .bigint n => n
  | .buf bs => bs.foldl (fun (acc : Int) (b : Nat) => acc * 256 + (b : Int)) 0
  | .str _ => 0
  | .null => 0

/-- `toNumber(varbinds[i]?.value)`: a missing varbind (JS `undefined`)
also normalizes to 0. -/
def toNumberOpt : Option SnmpValue → Int
  | some v => toNumber v
  | none => 0

/-- Does the value have one of the three recognized counter forms? -/
def SnmpValue.isCounterForm : SnmpValue → Bool
  | .num _ => true
  | .bigint _ => true
  | .buf _ => true
  | _ => false

/-- An SNMP varbind: the OID (as its dotted components) and the value. -/
structure Varbind where
  oid : List Nat
  value : SnmpValue
deriving Repr, DecidableEq

/-- JS `value.toString()` for a non-null varbind value (buffers decode
bytewise, which agrees with UTF-8 on the ASCII range the client matches). -/
def snmpToString : SnmpValue → String
  | .num n => toString n
  | .bigint n => toString n
  | .buf bs => String.mk (bs.map Char.ofNat)
  | .str s => s
  | .null => ""

/-- The leading-token match `fullName.match(/^(X\d+)/i)`: an `X` or `x`
followed by at least one ASCII digit, longest digit run. -/
def parseIfName (s : String) : Option String :=
  match s.data with
  | [] => none
  | c :: rest =>
    if c = 'X' ∨ c = 'x' then
      let ds := rest.takeWhile Char.isDigit
      if ds.isEmpty then none else some (String.mk (c :: ds))
    else none

/-- One step of the interface-description walk: record
`name ↦ last OID component` when the uppercased leading token is in the
wanted set (skipping null values). -/
def buildIfIndexMapStep (wanted : List String) (m : List (String × Nat)) (vb : Varbind) :
    List (String × Nat) :=
  if vb.value = SnmpValue.null then m
  else
    match parseIfName (snmpToString vb.value) with
    | none => m
    | some nm =>
      let name := jsToUpper nm
      let index := (vb.oid.getLast?).getD 0
      if wanted.contains name then aset name index m else m

/-- `ifIndexMap` from the `ifDescr` walk. -/
def buildIfIndexMap (wanted : List String) (walk : List Varbind) : List (String × Nat) :=
  walk.foldl (buildIfIndexMapStep wanted) []

/-- Positional correlation of the three IP-table walks:
`ifIndex ↦ (address, mask)` for entries with a truthy index and address. -/
def buildIpMap (addrs idxs masks : List Varbind) : List (Nat × (String × String)) :=
  (List.range addrs.length).foldl (fun mm i =>
    let ifIndex : Nat := match (idxs.get? i).map Varbind.value with
      | some (.num n) => n.toNat
      | _ => 0
    let ip := match (addrs.get? i).map Varbind.value with
      | some SnmpValue.null => ""
      | some v => snmpToString v
      | none => ""
    let mask := match (masks.get? i).map Varbind.value with
      | some SnmpValue.null => ""
      | some v => snmpToString v
      | none => ""
    if ifIndex ≠ 0 ∧ ip ≠ "" then aset ifIndex (ip, mask) mm else mm) []

/-- `results.slice(n*g, n*(g+1))[i]?.value`: the value at position `i` of
the `g`-th of the eleven parallel groups sliced from the batched GET. -/
def groupGet (results : List Varbind) (n g i : Nat) : Option SnmpValue :=
  (((results.drop (n * g)).take n).get? i).map Varbind.value

/-- `operStatus === 1 ? true : operStatus === 2 ? false : null`
(`operStatus` is the value cast to a JS number, so only an actual
number compares equal). -/
def snmpLinkUp (v : Option SnmpValue) : Option Bool :=
  match v with
  | some (.num 1) => some true
  | some (.num 2) => some false
  | _ => none

/-- `formatSpeed` from `src/lib/snmp-client.ts` (`toFixed(0)` rounds to
nearest, half away from zero; speeds are nonnegative). -/
def formatSpeed (bps : Int) : String :=
  if bps ≥ 1000000000 then toString ((bps + 500000000) / 1000000000) ++ " Gbps"
  else if bps ≥ 1000000 then toString ((bps + 500000) / 1000000) ++ " Mbps"
  else if bps ≥ 1000 then toString ((bps + 500) / 1000) ++ " Kbps"
  else toString bps ++ " bps"

/-- Hex byte pair `b.toString(16).padStart(2, "0")`. -/
def hex2 (b : Nat) : List Char :=
  List.replicate (2 - (hexDigits b).length) '0' ++ hexDigits b

/-- JS `parts.join(":")` on char lists. -/
def joinColon : List (List Char) → List Char
  | [] => []
  | [x] => x
  | x :: rest => x ++ ':' :: joinColon rest

/-- `formatMac` from `src/lib/snmp-client.ts`. -/
def formatMac (bs : List Nat) : String :=
  jsToUpper (String.mk (joinColon (bs.map hex2)))

/-- A numeric varbind value (`value as number` used as a number). -/
def asNum : Option SnmpValue → Option Int
  | some (.num n) => some n
  | _ => none

/-- The status record built for the `i`-th resolved interface
(the body of the final loop of `getWanStatusesViaSNMP`). -/
def mkSnmpStatus (ipMap : List (Nat × (String × String))) (results : List Varbind)
    (n : Nat) (i : Nat) (name : String) (ifIndex : Nat) : IspInterfaceStatus :=
  let ipInfo := alookup ifIndex ipMap
  { name := name
    linkUp := snmpLinkUp (groupGet results n 0 i)
    ipAddress := match ipInfo with
                 | some q => if q.1 = "" then none else some q.1
                 | none => none
    subnetMask := match ipInfo with
                  | some q => if q.2 = "" then none else some q.2
                  | none => none
    linkSpeed := match groupGet results n 1 i with
                 | some (.num sp) => if sp = 0 then none else some (formatSpeed sp)
                 | _ => none
    ipMode := none
    zone := some "WAN"
    comment := none
    macAddress := match groupGet results n 2 i with
                  | some (.buf bs) => some (formatMac bs)
                  | _ => none
    mtu := asNum (groupGet results n 3 i)
    lastChange := asNum (groupGet results n 4 i)
    bytesIn := some (toNumberOpt (groupGet results n 5 i))
    bytesOut := some (toNumberOpt (groupGet results n 6 i))
    packetsIn := some (toNumberOpt (groupGet results n 7 i))
    packetsOut := some (toNumberOpt (groupGet results n 8 i))
    errorsIn := some (toNumberOpt (groupGet results n 9 i))
    errorsOut := some (toNumberOpt (groupGet results n 10 i)) }

/-- `getWanStatusesViaSNMP` as a function of the four network responses:
the `ifDescr` walk, the three IP-table walks, and the batched GET result
(one flat list covering eleven OID groups). -/
def getWanStatusesViaSNMP (wanted : List String) (ifDescrWalk : List Varbind)
    (ipAddrWalk ipIdxWalk ipMaskWalk : List Varbind) (results : List Varbind) :
    Except String (List IspInterfaceStatus) :=
  let m := buildIfIndexMap wanted ifDescrWalk
  if m.isEmpty then Except.error "No matching interfaces found"
  else
    let ipMap := buildIpMap ipAddrWalk ipIdxWalk ipMaskWalk
    let n := m.length
    Except.ok (m.enum.map (fun p => mkSnmpStatus ipMap results n p.1 p.2.1 p.2.2))

/-! ## State Tracker (`src/lib/isp-tracker.ts`) -/

/-- `IspState`: last-known tri-state link status and the time of the most
recent observed change (timestamps as rational epoch milliseconds). -/
structure IspState where
  linkUp : Option Bool
  lastChangeTime : Rat
deriving Repr, DecidableEq

/-- `LogEntry`: one transition event. `event` is `true` for `"up"`,
`false` for `"down"`. -/
structure LogEntry where
  id : Nat
  interfaceName : String
  event : Bool
  timestamp : Rat
  duration : Option Rat := none
deriving Repr, DecidableEq

/-- The tracker's process-lifetime global state. -/
structure GlobalState where
  serverStartedAt : Rat
  ispStates : List (String × IspState)
  eventLog : List LogEntry
  eventIdCounter : Nat
deriving Repr, DecidableEq

/-- The freshly constructed tracker state. -/
def initialState (t : Rat) : GlobalState :=
  { serverStartedAt := t, ispStates := [], eventLog := [], eventIdCounter := 0 }

/-- The loop body of `processStatuses` for one status record. -/
def processOne (now : Rat) (st : GlobalState) (status : IspInterfaceStatus) : GlobalState :=
  match alookup status.name st.ispStates with
  | none =>
    let st1 := { st with ispStates := aset status.name ⟨status.linkUp, now⟩ st.ispStates }
    match status.linkUp with
    | some b =>
      { st1 with
        eventIdCounter := st.eventIdCounter + 1,
        eventLog := ⟨st.eventIdCounter + 1, status.name, b, now, none⟩ :: st.eventLog }
    | none => st1
  | some prev =>
    match status.linkUp with
    | some b =>
      if some b ≠ prev.linkUp then
        { st with
          eventIdCounter := st.eventIdCounter + 1,
          eventLog := ⟨st.eventIdCounter + 1, status.name, b, now,
            some (now - prev.lastChangeTime)⟩ :: st.eventLog,
          ispStates := aset status.name ⟨some b, now⟩ st.ispStates }
      else st
    | none => st

/-- The 100-entry cap: `if (eventLog.length > 100) eventLog = eventLog.slice(0, 100)`. -/
def capLog (log : List LogEntry) : List LogEntry :=
  if 100 < log.length then log.take 100 else log

/-- `processStatuses` from `src/lib/isp-tracker.ts`: fold the loop body
over the poll result at poll time `now`, then cap the event log. -/
def processStatuses (statuses : List IspInterfaceStatus) (now : Rat) (st : GlobalState) :
    GlobalState :=
  let st2 := statuses.foldl (processOne now) st
  { st2 with eventLog := capLog st2.eventLog }

/-- The snapshot handed to the presentation layer (the source copies the
map and the log; copies of immutable values are the values themselves). -/
structure TrackerSnapshot where
  serverStartedAt : Rat
  ispStates : List (String × IspState)
  eventLog : List LogEntry
deriving Repr, DecidableEq

/-- Snapshot of the current state. -/
def snapshotOf (st : GlobalState) : TrackerSnapshot :=
  { serverStartedAt := st.serverStartedAt,
    ispStates := st.ispStates,
    eventLog := st.eventLog }

/-- `getTrackedStatuses` from `src/lib/isp-tracker.ts`: `poll` is the
outcome of the facade's `getWanStatuses()` call (an exception or a status
list). On an exception the tracker state is left as is and the error
propagates; otherwise `processStatuses` runs and a snapshot is returned. -/
def getTrackedStatuses (poll : Except String (List IspInterfaceStatus)) (now : Rat)
    (st : GlobalState) :
    Except String (List IspInterfaceStatus × TrackerSnapshot) × GlobalState :=
  match poll with
  | Except.error e => (Except.error e, st)
  | Except.ok statuses =>
    let st2 := processStatuses statuses now st
    (Except.ok (statuses, snapshotOf st2), st2)

/-! ## Dashboard bandwidth computation (`src/app/isp-status-dashboard.tsx`) -/

/-- `TrafficSample`: timestamp (epoch ms) and cumulative byte counters. -/
structure TrafficSample where
  timestamp : Rat
  bytesIn : Rat
  bytesOut : Rat
deriving Repr, DecidableEq

instance : Inhabited TrafficSample := ⟨⟨0, 0, 0⟩⟩

/-- A pair of bandwidth figures in bytes per second. -/
structure Bandwidth where
  inBps : Rat
  outBps : Rat
deriving Repr, DecidableEq

/-- The samples whose timestamp is within the requested window:
`history.filter(s => s.timestamp >= now - windowSec * 1000)`. -/
def windowSamples (now windowSec : Rat) (history : List TrafficSample) : List TrafficSample :=
  history.filter (fun s => decide (now - windowSec * 1000 ≤ s.timestamp))

/-- `calculateBandwidth` from `src/app/isp-status-dashboard.tsx`
(`Date.now()` is the explicit parameter `now`; division is exact here,
as the source divides JS floats). -/
def calculateBandwidth (now : Rat) (history : List TrafficSample) (windowSec : Rat) :
    Option Bandwidth :=
  if history.length < 2 then none
  else
    let samplesInWindow := windowSamples now windowSec history
    if samplesInWindow.length < 2 then none
    else
      let oldest := samplesInWindow.headI
      let newest := samplesInWindow.getLastI
      let timeDiff := (newest.timestamp - oldest.timestamp) / 1000
      if timeDiff < 1 then none
      else
        let bytesInDiff := newest.bytesIn - oldest.bytesIn
        let bytesOutDiff := newest.bytesOut - oldest.bytesOut
        if bytesInDiff < 0 ∨ bytesOutDiff < 0 then none
        else some ⟨bytesInDiff / timeDiff, bytesOutDiff / timeDiff⟩

/-! ## Helper lemmas -/

theorem char_toNat_ofNat (n : Nat) (h : n.isValidChar) : (Char.ofNat n).toNat = n := by
  unfold Char.ofNat
  rw [dif_pos h]
  unfold Char.ofNatAux Char.toNat
  exact BitVec.toNat_ofNatLt n _

theorem char_toUpper_idem (c : Char) : c.toUpper.toUpper = c.toUpper := by
  unfold Char.toUpper
  by_cases h : c.toNat ≥ 97 ∧ c.toNat ≤ 122
  · have hv : (c.toNat - 32).isValidChar := Or.inl (by omega)
    have ht : (Char.ofNat (c.toNat - 32)).toNat = c.toNat - 32 := char_toNat_ofNat _ hv
    rw [if_pos h, if_neg (by rw [ht]; omega)]
  · rw [if_neg h, if_neg h]

theorem jsToUpper_idem (s : String) : jsToUpper (jsToUpper s) = jsToUpper s := by
  unfold jsToUpper
  show String.mk ((s.data.map Char.toUpper).map Char.toUpper) = _
  rw [List.map_map]
  congr 1
  exact List.map_congr_left fun c _ => char_toUpper_idem c

theorem alookup_aset_self {κ β : Type} [DecidableEq κ] (k : κ) (v : β) (m : List (κ × β)) :
    alookup k (aset k v m) = some v := by
  induction m with
  | nil => simp [alookup, aset]
  | cons p rest ih =>
    obtain ⟨k', w⟩ := p
    by_cases h : k' = k
    · simp [aset, alookup, h]
    · simp [aset, alookup, h, ih]

theorem alookup_aset_ne {κ β : Type} [DecidableEq κ] (k k' : κ) (v : β) (m : List (κ × β))
    (h : k' ≠ k) : alookup k (aset k' v m) = alookup k m := by
  induction m with
  | nil => simp [alookup, aset, h]
  | cons p rest ih =>
    obtain ⟨k'', w⟩ := p
    by_cases h2 : k'' = k'
    · subst h2
      simp [aset, alookup, h]
    · simp only [aset, if_neg h2]
      by_cases h3 : k'' = k
      · subst h3
        simp [alookup]
      · simp only [alookup, if_neg h3]
        exact ih

theorem foldl_mul256 (bs : List Nat) (acc : Int) :
    bs.foldl (fun (a : Int) (b : Nat) => a * 256 + (b : Int)) acc
      = acc * 256 ^ bs.length + ((Nat.ofDigits 256 bs.reverse : Nat) : Int) := by
  induction bs generalizing acc with
  | nil => simp [Nat.ofDigits]
  | cons a bs ih =>
    simp only [List.foldl_cons, ih, List.reverse_cons, List.length_cons]
    rw [Nat.ofDigits_append]
    push_cast [Nat.ofDigits_singleton, List.length_reverse]
    ring

/-! ## C5: a failed poll leaves the tracker state untouched -/

/-- C5: when the acquisition call (`getWanStatuses()`) fails,
`getTrackedStatuses` propagates that single error to its caller and the
tracker state — the LinkState map, the event log and the event-id
counter — is exactly as it was before the poll; no partial update
happens. -/
theorem getTrackedStatuses_error_preserves_state (e : String) (now : Rat) (st : GlobalState) :
    getTrackedStatuses (Except.error e) now st = (Except.error e, st) ∧
    (getTrackedStatuses (Except.error e) now st).2.ispStates = st.ispStates ∧
    (getTrackedStatuses (Except.error e) now st).2.eventLog = st.eventLog ∧
    (getTrackedStatuses (Except.error e) now st).2.eventIdCounter = st.eventIdCounter :=
  ⟨rfl, rfl, rfl, rfl⟩

/-! ## C6: SNMP counter coercion -/

/-- C6: `toNumber` normalizes a native number, an arbitrary-precision
integer, and a raw byte sequence to one numeric representation; a byte
sequence is read as a base-256 big-endian unsigned integer (equivalently,
`Nat.ofDigits 256` of the reversed byte list); in particular the 4-byte
sequence `0x00 0x00 0x01 0x00` decodes to 256. -/
theorem toNumber_normalizes :
    (∀ n : Int, toNumber (SnmpValue.num n) = n) ∧
    (∀ n : Int, toNumber (SnmpValue.bigint n) = n) ∧
    (∀ bs : List Nat, toNumber (SnmpValue.buf bs) = ((Nat.ofDigits 256 bs.reverse : Nat) : Int)) ∧
    toNumber (SnmpValue.buf [0, 0, 1, 0]) = 256 := by
  refine ⟨fun n => rfl, fun n => rfl, fun bs => ?_, by decide⟩
  have h := foldl_mul256 bs 0
  simp only [zero_mul, zero_add] at h
  simp only [toNumber]
  exact h

/-! ## C10: unrecognized counter values surface as 0 -/

/-- C10: for every varbind value that is neither a number, a bigint, nor
a byte buffer — including a missing varbind (`undefined`) and an SNMP
null — `toNumber` yields 0, and the built SNMP status record carries 0 in
the counter fields instead of failing the poll (shown on a poll whose
batched GET returned no varbinds at all). -/
theorem toNumber_default_zero :
    (∀ v : SnmpValue, v.isCounterForm = false → toNumber v = 0) ∧
    toNumberOpt none = 0 ∧
    (Except.map (List.map IspInterfaceStatus.bytesIn)
      (getWanStatusesViaSNMP ["X1"] [⟨[1, 3, 6, 1, 2, 1, 2, 2, 1, 2, 1], SnmpValue.str "X1 WAN"⟩]
        [] [] [] []) = Except.ok [some 0]) ∧
    (Except.map (List.map IspInterfaceStatus.errorsOut)
      (getWanStatusesViaSNMP ["X1"] [⟨[1, 3, 6, 1, 2, 1, 2, 2, 1, 2, 1], SnmpValue.str "X1 WAN"⟩]
        [] [] [] []) = Except.ok [some 0]) := by
  refine ⟨fun v hv => ?_, rfl, rfl, rfl⟩
  cases v <;> simp_all [SnmpValue.isCounterForm, toNumber]

/-- Witness for C10 at a concrete non-counter value. -/
theorem toNumber_default_zero_witness :
    SnmpValue.isCounterForm SnmpValue.null = false ∧ toNumber SnmpValue.null = 0 :=
  ⟨rfl, toNumber_default_zero.1 SnmpValue.null rfl⟩

/-! ## C9: the interface-status GET ignores the HTTP status code -/

/-- C9: the third request of the handshake never has its HTTP status code
(or `ok` flag) inspected: for any parsed JSON body the result is computed
from the body alone, so a non-success response with a JSON body yields an
empty (or filtered) result set rather than a poll failure. -/
theorem statusResponse_code_ignored (wanted : List String) (hdrs : List String)
    (authResponse : RestResponse) (s1 s2 : Nat) (ok1 ok2 : Bool) (body : RestBody) :
    getWanStatusesREST wanted hdrs authResponse ⟨s1, ok1, body⟩
      = getWanStatusesREST wanted hdrs authResponse ⟨s2, ok2, body⟩ ∧
    getWanStatusesREST ["X1"] ["Digest realm=\"r\", nonce=\"n\", qop=\"auth\", algorithm=MD5"]
      ⟨200, true, RestBody.otherShape⟩ ⟨500, false, RestBody.otherShape⟩ = Except.ok [] := by
  constructor
  · cases h : selectWwwAuth hdrs <;> simp [getWanStatusesREST, h]
  · rfl

/-! ## C1: when does the stored LinkState change? -/

theorem processOne_lookup_existing (now : Rat) (st : GlobalState) (status : IspInterfaceStatus)
    (s0 : IspState) (h : alookup status.name st.ispStates = some s0) :
    alookup status.name (processOne now st status).ispStates =
      (if status.linkUp ≠ none ∧ status.linkUp ≠ s0.linkUp
       then some (IspState.mk status.linkUp now) else some s0) := by
  unfold processOne
  cases hl : status.linkUp with
  | none => simp [h, hl]
  | some b =>
    by_cases hb : some b = s0.linkUp
    · simp [h, hl, hb]
    · simp [h, hl, hb, alookup_aset_self]

theorem processOne_lookup_other (now : Rat) (st : GlobalState) (status : IspInterfaceStatus)
    (nm : String) (h : nm ≠ status.name) :
    alookup nm (processOne now st status).ispStates = alookup nm st.ispStates := by
  unfold processOne
  cases ha : alookup status.name st.ispStates with
  | none =>
    cases hl : status.linkUp <;> simp [ha, hl, alookup_aset_ne nm status.name _ _ (Ne.symm h)]
  | some prev =>
    cases hl : status.linkUp with
    | none => simp [ha, hl]
    | some b =>
      by_cases hb : some b = prev.linkUp <;>
        simp [ha, hl, hb, alookup_aset_ne nm status.name _ _ (Ne.symm h)]

theorem processOne_unknown_log (now : Rat) (st : GlobalState) (status : IspInterfaceStatus)
    (h : status.linkUp = none) :
    (processOne now st status).eventLog = st.eventLog ∧
    (processOne now st status).eventIdCounter = st.eventIdCounter := by
  unfold processOne
  cases ha : alookup status.name st.ispStates <;> simp [ha, h]

theorem foldl_processOne_lookup_unknown (now : Rat) (nm : String) (s0 : IspState) :
    ∀ (statuses : List IspInterfaceStatus) (st : GlobalState),
      alookup nm st.ispStates = some s0 →
      (∀ status ∈ statuses, status.name = nm → status.linkUp = none) →
      alookup nm (statuses.foldl (processOne now) st).ispStates = some s0 := by
  intro statuses
  induction statuses with
  | nil => intro st h _; exact h
  | cons s rest ih =>
    intro st h hall
    simp only [List.foldl_cons]
    apply ih
    · by_cases hs : nm = s.name
      · subst hs
        have hl : s.linkUp = none := hall s (by simp) rfl
        rw [processOne_lookup_existing now st s s0 h]
        simp [hl]
      · rw [processOne_lookup_other now st s nm hs]
        exact h
    · intro status hmem hname
      exact hall status (by simp [hmem]) hname

theorem foldl_processOne_unknown_log (now : Rat) :
    ∀ (statuses : List IspInterfaceStatus) (st : GlobalState),
      (∀ status ∈ statuses, status.linkUp = none) →
      (statuses.foldl (processOne now) st).eventLog = st.eventLog ∧
      (statuses.foldl (processOne now) st).eventIdCounter = st.eventIdCounter := by
  intro statuses
  induction statuses with
  | nil => intro st _; exact ⟨rfl, rfl⟩
  | cons s rest ih =>
    intro st hall
    simp only [List.foldl_cons]
    have h1 := processOne_unknown_log now st s (hall s (by simp))
    have h2 := ih (processOne now st s) (fun status hm => hall status (by simp [hm]))
    exact ⟨h2.1.trans h1.1, h2.2.trans h1.2⟩

/-- C1 counterexample: the claim requires the OLD stored state to be
resolved for a change to happen, but the code only requires the NEW
reading to be resolved and different. Here the stored `LinkState` for
`"X1"` is unresolved (`linkUp = none`, stored at time 0); a resolved
reading `some true` at time 5 does change the stored state (and appends
an event), contradicting the claim as stated. -/
theorem processStatuses_old_unresolved_cex :
    alookup "X1" (GlobalState.mk 0 [("X1", IspState.mk none 0)] [] 0).ispStates
      = some (IspState.mk none 0) ∧
    alookup "X1" (processStatuses [{ name := "X1", linkUp := some true }] 5
      (GlobalState.mk 0 [("X1", IspState.mk none 0)] [] 0)).ispStates
      = some (IspState.mk (some true) 5) ∧
    (processStatuses [{ name := "X1", linkUp := some true }] 5
      (GlobalState.mk 0 [("X1", IspState.mk none 0)] [] 0)).eventLog.length = 1 := by
  refine ⟨rfl, ?_, rfl⟩
  rfl

/-- C1 (amended): for an interface that already has a stored LinkState,
the stored LinkState changes exactly when a resolved reading differing
from the currently stored value arrives — the stored value itself need
not be resolved; an unknown reading never mutates stored state and never
appends an event-log entry (nor bumps the event-id counter), over a
single step and over a whole `processStatuses` pass. -/
theorem processStatuses_transition_rule :
    (∀ (now : Rat) (st : GlobalState) (status : IspInterfaceStatus) (s0 : IspState),
      alookup status.name st.ispStates = some s0 →
      alookup status.name (processOne now st status).ispStates =
        (if status.linkUp ≠ none ∧ status.linkUp ≠ s0.linkUp
         then some (IspState.mk status.linkUp now) else some s0)) ∧
    (∀ (now : Rat) (st : GlobalState) (status : IspInterfaceStatus),
      status.linkUp = none →
      (processOne now st status).eventLog = st.eventLog ∧
      (processOne now st status).eventIdCounter = st.eventIdCounter) ∧
    (∀ (now : Rat) (st : GlobalState) (statuses : List IspInterfaceStatus) (nm : String)
      (s0 : IspState),
      alookup nm st.ispStates = some s0 →
      (∀ status ∈ statuses, status.name = nm → status.linkUp = none) →
      alookup nm (processStatuses statuses now st).ispStates = some s0) ∧
    (∀ (now : Rat) (st : GlobalState) (statuses : List IspInterfaceStatus),
      (∀ status ∈ statuses, status.linkUp = none) →
      st.eventLog.length ≤ 100 →
      (processStatuses statuses now st).eventLog = st.eventLog ∧
      (processStatuses statuses now st).eventIdCounter = st.eventIdCounter) := by
  refine ⟨processOne_lookup_existing, processOne_unknown_log, ?_, ?_⟩
  · intro now st statuses nm s0 h hall
    exact foldl_processOne_lookup_unknown now nm s0 statuses st h hall
  · intro now st statuses hall hlen
    have h := foldl_processOne_unknown_log now statuses st hall
    unfold processStatuses
    refine ⟨?_, h.2⟩
    show capLog (statuses.foldl (processOne now) st).eventLog = st.eventLog
    rw [h.1]
    unfold capLog
    rw [if_neg (by omega)]

/-- Witness for C1 (amended): a concrete genuine transition
(up at time 0, reading down at time 7) updates the stored state. -/
theorem processStatuses_transition_rule_witness :
    alookup "X1" (GlobalState.mk 0 [("X1", IspState.mk (some true) 0)] [] 0).ispStates
      = some (IspState.mk (some true) 0) ∧
    alookup "X1" (processOne 7 (GlobalState.mk 0 [("X1", IspState.mk (some true) 0)] [] 0)
      { name := "X1", linkUp := some false }).ispStates
      = some (IspState.mk (some false) 7) := by
  refine ⟨rfl, ?_⟩
  have h := processStatuses_transition_rule.1 7
    (GlobalState.mk 0 [("X1", IspState.mk (some true) 0)] [] 0)
    { name := "X1", linkUp := some false } (IspState.mk (some true) 0) rfl
  simpa using h

/-! ## C7: event-log cap and ordering -/

theorem chain'_take {α : Type} {R : α → α → Prop} :
    ∀ (l : List α) (n : Nat), List.Chain' R l → List.Chain' R (l.take n) := by
  intro l
  induction l with
  | nil => intro n _; simp
  | cons a l ih =>
    intro n h
    cases n with
    | zero => simp
    | succ m =>
      rw [List.take_succ_cons]
      rw [List.chain'_cons'] at h ⊢
      refine ⟨?_, ih m h.2⟩
      intro y hy
      apply h.1
      cases l with
      | nil => simp at hy
      | cons b l' =>
        cases m with
        | zero => simp at hy
        | succ m' => simpa using hy

theorem processOne_log_shape (now : Rat) (st : GlobalState) (status : IspInterfaceStatus) :
    ((processOne now st status).eventLog = st.eventLog ∧
     (processOne now st status).eventIdCounter = st.eventIdCounter ∧
     (processOne now st status).ispStates = st.ispStates ∨
     ∃ nm, (processOne now st status).ispStates = aset nm (IspState.mk status.linkUp now) st.ispStates ∧
     (processOne now st status).eventLog = st.eventLog ∧
     (processOne now st status).eventIdCounter = st.eventIdCounter) ∨
    (∃ b dur sts,
      (processOne now st status).eventLog =
        LogEntry.mk (st.eventIdCounter + 1) status.name b now dur :: st.eventLog ∧
      (processOne now st status).eventIdCounter = st.eventIdCounter + 1 ∧
      (processOne now st status).ispStates = sts) := by
  unfold processOne
  cases ha : alookup status.name st.ispStates with
  | none =>
    cases hl : status.linkUp with
    | none => exact Or.inl (Or.inr ⟨status.name, by simp [hl], rfl, rfl⟩)
    | some b => exact Or.inr ⟨b, none, _, rfl, rfl, rfl⟩
  | some prev =>
    cases hl : status.linkUp with
    | none => exact Or.inl (Or.inl ⟨rfl, rfl, rfl⟩)
    | some b =>
      by_cases hb : some b = prev.linkUp
      · have hcond : ¬(some b ≠ prev.linkUp) := fun hne => hne hb
        simp only [if_neg hcond]
        exact Or.inl (Or.inl ⟨by trivial, by trivial, by trivial⟩)
      · simp only [if_pos hb]
        exact Or.inr ⟨b, some (now - prev.lastChangeTime), _, by trivial, by trivial, by trivial⟩

theorem processOne_log_inv (now : Rat) (st : GlobalState) (status : IspInterfaceStatus)
    (h1 : List.Chain' (fun a b => b.id < a.id) st.eventLog)
    (h2 : ∀ e ∈ st.eventLog, e.id ≤ st.eventIdCounter) :
    List.Chain' (fun a b => b.id < a.id) (processOne now st status).eventLog ∧
    (∀ e ∈ (processOne now st status).eventLog,
      e.id ≤ (processOne now st status).eventIdCounter) := by
  rcases processOne_log_shape now st status with (⟨hlog, hctr, _⟩ | ⟨_, _, hlog, hctr⟩) |
    ⟨b, dur, sts, hlog, hctr, _⟩ <;> rw [hlog, hctr]
  · exact ⟨h1, h2⟩
  · exact ⟨h1, h2⟩
  · constructor
    · rw [List.chain'_cons']
      refine ⟨?_, h1⟩
      intro y hy
      have hm : y ∈ st.eventLog := List.mem_of_mem_head? hy
      have := h2 y hm
      simp only []
      omega
    · intro e he
      rcases List.mem_cons.mp he with rfl | he'
      · simp
      · have := h2 e he'
        omega

theorem foldl_processOne_log_inv (now : Rat) :
    ∀ (statuses : List IspInterfaceStatus) (st : GlobalState),
      List.Chain' (fun a b => b.id < a.id) st.eventLog →
      (∀ e ∈ st.eventLog, e.id ≤ st.eventIdCounter) →
      List.Chain' (fun a b => b.id < a.id) (statuses.foldl (processOne now) st).eventLog ∧
      (∀ e ∈ (statuses.foldl (processOne now) st).eventLog,
        e.id ≤ (statuses.foldl (processOne now) st).eventIdCounter) := by
  intro statuses
  induction statuses with
  | nil => intro st h1 h2; exact ⟨h1, h2⟩
  | cons s rest ih =>
    intro st h1 h2
    simp only [List.foldl_cons]
    have h := processOne_log_inv now st s h1 h2
    exact ih (processOne now st s) h.1 h.2

theorem capLog_length (log : List LogEntry) : (capLog log).length ≤ 100 := by
  unfold capLog
  by_cases h : 100 < log.length
  · rw [if_pos h, List.length_take]
    omega
  · rw [if_neg h]
    omega

theorem capLog_mem {e : LogEntry} {log : List LogEntry} (h : e ∈ capLog log) : e ∈ log := by
  unfold capLog at h
  by_cases h2 : 100 < log.length
  · rw [if_pos h2] at h
    exact List.mem_of_mem_take h
  · rwa [if_neg h2] at h

theorem processStatuses_log_inv (statuses : List IspInterfaceStatus) (now : Rat)
    (st : GlobalState)
    (h1 : List.Chain' (fun a b => b.id < a.id) st.eventLog)
    (h2 : ∀ e ∈ st.eventLog, e.id ≤ st.eventIdCounter) :
    List.Chain' (fun a b => b.id < a.id) (processStatuses statuses now st).eventLog ∧
    (∀ e ∈ (processStatuses statuses now st).eventLog,
      e.id ≤ (processStatuses statuses now st).eventIdCounter) ∧
    (processStatuses statuses now st).eventLog.length ≤ 100 := by
  have h := foldl_processOne_log_inv now statuses st h1 h2
  have hlog : (processStatuses statuses now st).eventLog
      = capLog (statuses.foldl (processOne now) st).eventLog := rfl
  have hctr : (processStatuses statuses now st).eventIdCounter
      = (statuses.foldl (processOne now) st).eventIdCounter := rfl
  rw [hlog, hctr]
  refine ⟨?_, ?_, capLog_length _⟩
  · unfold capLog
    by_cases hc : 100 < (statuses.foldl (processOne now) st).eventLog.length
    · rw [if_pos hc]
      exact chain'_take _ 100 h.1
    · rw [if_neg hc]
      exact h.1
  · intro e he
    exact h.2 e (capLog_mem he)

/-- C7: starting from the fresh tracker state, after any sequence of
`processStatuses` calls the event log has at most 100 entries and is
ordered newest first (the monotonic event-id counter strictly decreases
from the head); moreover each `processStatuses` call ends by keeping a
prefix of the uncapped log (`slice(0, 100)`), i.e. overflow silently
drops the oldest entries. -/
theorem eventLog_capped_newest_first (t0 : Rat) (polls : List (Rat × List IspInterfaceStatus)) :
    (polls.foldl (fun st p => processStatuses p.2 p.1 st) (initialState t0)).eventLog.length ≤ 100 ∧
    List.Chain' (fun a b => b.id < a.id)
      (polls.foldl (fun st p => processStatuses p.2 p.1 st) (initialState t0)).eventLog ∧
    (∀ (statuses : List IspInterfaceStatus) (now : Rat) (st : GlobalState),
      (processStatuses statuses now st).eventLog <+:
        (statuses.foldl (processOne now) st).eventLog) := by
  have main : ∀ (ps : List (Rat × List IspInterfaceStatus)) (st : GlobalState),
      List.Chain' (fun a b => b.id < a.id) st.eventLog →
      (∀ e ∈ st.eventLog, e.id ≤ st.eventIdCounter) →
      st.eventLog.length ≤ 100 →
      (ps.foldl (fun st p => processStatuses p.2 p.1 st) st).eventLog.length ≤ 100 ∧
      List.Chain' (fun a b => b.id < a.id)
        (ps.foldl (fun st p => processStatuses p.2 p.1 st) st).eventLog ∧
      (∀ e ∈ (ps.foldl (fun st p => processStatuses p.2 p.1 st) st).eventLog,
        e.id ≤ (ps.foldl (fun st p => processStatuses p.2 p.1 st) st).eventIdCounter) := by
    intro ps
    induction ps with
    | nil => intro st ha hb hc; exact ⟨hc, ha, hb⟩
    | cons p rest ih =>
      intro st ha hb hc
      simp only [List.foldl_cons]
      have h := processStatuses_log_inv p.2 p.1 st ha hb
      exact ih (processStatuses p.2 p.1 st) h.1 h.2.1 h.2.2
  have h0 := main polls (initialState t0) (by simp [initialState]) (by simp [initialState])
    (by simp [initialState])
  refine ⟨h0.1, h0.2.1, ?_⟩
  intro statuses now st
  show capLog (statuses.foldl (processOne now) st).eventLog <+: _
  unfold capLog
  by_cases hc : 100 < (statuses.foldl (processOne now) st).eventLog.length
  · rw [if_pos hc]
    exact ⟨(statuses.foldl (processOne now) st).eventLog.drop 100, List.take_append_drop _ _⟩
  · rw [if_neg hc]

/-! ## C3: bandwidth computation -/

theorem pairwise_rel_headI {α : Type} [Inhabited α] (R : α → α → Prop) (hrefl : ∀ a, R a a) :
    ∀ (l : List α), l.Pairwise R → ∀ s ∈ l, R l.headI s := by
  intro l
  induction l with
  | nil => intro _ s hs; simp at hs
  | cons a rest _ =>
    intro h s hs
    rw [List.pairwise_cons] at h
    rcases List.mem_cons.mp hs with rfl | hs'
    · exact hrefl s
    · exact h.1 s hs'

theorem getLastI_mem {α : Type} [Inhabited α] : ∀ (l : List α), l ≠ [] → l.getLastI ∈ l := by
  intro l hl
  rw [List.getLastI_eq_getLast?]
  cases hx : l.getLast? with
  | none => exact absurd (List.getLast?_eq_none_iff.mp hx) hl
  | some x =>
    simp only [Option.iget_some]
    rcases List.getLast?_eq_some_iff.mp hx with ⟨ys, rfl⟩
    simp

theorem pairwise_rel_getLastI {α : Type} [Inhabited α] (R : α → α → Prop) (hrefl : ∀ a, R a a) :
    ∀ (l : List α), l.Pairwise R → ∀ s ∈ l, R s l.getLastI := by
  intro l
  induction l with
  | nil => intro _ s hs; simp at hs
  | cons a rest ih =>
    intro h s hs
    rw [List.pairwise_cons] at h
    cases rest with
    | nil =>
      rcases List.mem_cons.mp hs with rfl | hs'
      · exact hrefl s
      · simp at hs'
    | cons b rest' =>
      have hstep : (a :: b :: rest').getLastI = (b :: rest').getLastI := by
        rw [List.getLastI_eq_getLast?, List.getLastI_eq_getLast?, List.getLast?_cons_cons]
      rw [hstep]
      rcases List.mem_cons.mp hs with rfl | hs'
      · exact h.1 _ (getLastI_mem (b :: rest') (by simp))
      · exact ih h.2 s hs'

/-- C3: `calculateBandwidth` filters the samples in the window, requires
at least two, takes the positionally first (oldest, when the history is
chronological) and last (newest) of those, and returns Δbytes/Δseconds
for both directions; it returns `none` — never a negative figure, and
never an infinite one since the elapsed time is at least one second —
exactly when fewer than two samples fall in the window, the elapsed time
is under one second, or either byte delta is negative; and on the history
[bytesIn 1000 at t=0, 5000 at t=4000 ms] with a 4-second window the
inbound rate is exactly 1000 bytes/sec. -/
theorem calculateBandwidth_spec (now windowSec : Rat) (history : List TrafficSample) :
    (calculateBandwidth now history windowSec = none ↔
      (windowSamples now windowSec history).length < 2 ∨
      ((windowSamples now windowSec history).getLastI.timestamp -
        (windowSamples now windowSec history).headI.timestamp) / 1000 < 1 ∨
      (windowSamples now windowSec history).getLastI.bytesIn -
        (windowSamples now windowSec history).headI.bytesIn < 0 ∨
      (windowSamples now windowSec history).getLastI.bytesOut -
        (windowSamples now windowSec history).headI.bytesOut < 0) ∧
    (∀ bw : Bandwidth, calculateBandwidth now history windowSec = some bw →
      0 ≤ bw.inBps ∧ 0 ≤ bw.outBps ∧
      bw.inBps = ((windowSamples now windowSec history).getLastI.bytesIn -
        (windowSamples now windowSec history).headI.bytesIn) /
        (((windowSamples now windowSec history).getLastI.timestamp -
          (windowSamples now windowSec history).headI.timestamp) / 1000) ∧
      bw.outBps = ((windowSamples now windowSec history).getLastI.bytesOut -
        (windowSamples now windowSec history).headI.bytesOut) /
        (((windowSamples now windowSec history).getLastI.timestamp -
          (windowSamples now windowSec history).headI.timestamp) / 1000)) ∧
    (List.Pairwise (fun a b : TrafficSample => a.timestamp ≤ b.timestamp) history →
      ∀ s ∈ windowSamples now windowSec history,
        (windowSamples now windowSec history).headI.timestamp ≤ s.timestamp ∧
        s.timestamp ≤ (windowSamples now windowSec history).getLastI.timestamp) ∧
    calculateBandwidth 4000 [⟨0, 1000, 0⟩, ⟨4000, 5000, 0⟩] 4 = some ⟨1000, 0⟩ := by
  refine ⟨?_, ?_, ?_, ?_⟩
  · simp only [calculateBandwidth]
    split_ifs with h1 h2 h3 h4
    · have hlt : (windowSamples now windowSec history).length < 2 :=
        lt_of_le_of_lt (List.length_filter_le _ _) h1
      simp [hlt]
    · simp [h2]
    · simp [h3]
    · exact iff_of_true rfl (by tauto)
    · push_neg at h4
      simp [h2, h3, not_lt.mpr h4.1, not_lt.mpr h4.2]
  · intro bw hbw
    simp only [calculateBandwidth] at hbw
    split_ifs at hbw with h1 h2 h3 h4
    all_goals cases hbw
    push_neg at h4
    have htd : (0 : Rat) ≤ ((windowSamples now windowSec history).getLastI.timestamp -
        (windowSamples now windowSec history).headI.timestamp) / 1000 :=
      le_trans zero_le_one (not_lt.mp h3)
    exact ⟨div_nonneg h4.1 htd, div_nonneg h4.2 htd, rfl, rfl⟩
  · intro hp s hs
    have hw : List.Pairwise (fun a b : TrafficSample => a.timestamp ≤ b.timestamp)
        (windowSamples now windowSec history) := List.Pairwise.filter _ hp
    exact ⟨pairwise_rel_headI (fun a b => a.timestamp ≤ b.timestamp)
        (fun a => le_refl a.timestamp) _ hw s hs,
      pairwise_rel_getLastI (fun a b => a.timestamp ≤ b.timestamp)
        (fun a => le_refl a.timestamp) _ hw s hs⟩
  · have hw : windowSamples 4000 4 [⟨0, 1000, 0⟩, ⟨4000, 5000, 0⟩]
        = [⟨0, 1000, 0⟩, ⟨4000, 5000, 0⟩] := by
      unfold windowSamples
      norm_num [List.filter]
    unfold calculateBandwidth
    rw [hw]
    norm_num [List.headI, List.getLastI]

/-- Witness for C3 on the spec's concrete vector, with the
`= some bw` hypothesis of the nonnegativity conjunct discharged there. -/
theorem calculateBandwidth_spec_witness :
    calculateBandwidth 4000 [⟨0, 1000, 0⟩, ⟨4000, 5000, 0⟩] 4 = some ⟨1000, 0⟩ ∧
    (0 : Rat) ≤ (Bandwidth.mk 1000 0).inBps := by
  have h := calculateBandwidth_spec 4000 4 [⟨0, 1000, 0⟩, ⟨4000, 5000, 0⟩]
  exact ⟨h.2.2.2, (h.2.1 ⟨1000, 0⟩ h.2.2.2).1⟩

/-! ## C2: the digest computation -/

theorem hexDigitChar_hex (n : Nat) (h : n < 16) : isHexChar (hexDigitChar n) = true := by
  unfold hexDigitChar isHexChar
  by_cases h10 : n < 10
  · have ht : (Char.ofNat (48 + n)).toNat = 48 + n := char_toNat_ofNat _ (Or.inl (by omega))
    rw [if_pos h10]
    simp [ht]
    omega
  · have ht : (Char.ofNat (87 + n)).toNat = 87 + n := char_toNat_ofNat _ (Or.inl (by omega))
    rw [if_neg h10]
    simp [ht]
    omega

theorem hexDigits_all_hex (n : Nat) : ∀ c ∈ hexDigits n, isHexChar c = true := by
  induction n using Nat.strong_induction_on with
  | _ n ih =>
    intro c hc
    by_cases hn : n < 16
    · rw [hexDigits, dif_pos hn] at hc
      simp at hc
      subst hc
      exact hexDigitChar_hex n hn
    · rw [hexDigits, dif_neg hn] at hc
      rcases List.mem_append.mp hc with hc1 | hc2
      · exact ih (n / 16) (Nat.div_lt_self (by omega) (by omega)) c hc1
      · simp at hc2
        subst hc2
        exact hexDigitChar_hex (n % 16) (Nat.mod_lt n (by omega))

theorem hexDigits_length_le : ∀ (k n : Nat), n < 16 ^ (k + 1) → (hexDigits n).length ≤ k + 1 := by
  intro k
  induction k with
  | zero =>
    intro n h
    have hn : n < 16 := by simpa using h
    rw [hexDigits, dif_pos hn]
    simp
  | succ k ih =>
    intro n h
    by_cases hn : n < 16
    · rw [hexDigits, dif_pos hn]
      simp
    · rw [hexDigits, dif_neg hn]
      rw [List.length_append]
      have hdiv : n / 16 < 16 ^ (k + 1) := by
        rw [Nat.div_lt_iff_lt_mul (by norm_num)]
        calc n < 16 ^ (k + 1 + 1) := h
        _ = 16 ^ (k + 1) * 16 := by ring
      have := ih (n / 16) hdiv
      simp only [List.length_singleton]
      omega

theorem ncString_length (nc : Nat) (h : nc < 16 ^ 8) : (ncString nc).length = 8 := by
  have hlen : (hexDigits nc).length ≤ 8 := hexDigits_length_le 7 nc h
  show (padStart8Zero (hexDigits nc)).length = 8
  unfold padStart8Zero
  rw [List.length_append, List.length_replicate]
  omega

theorem ncString_chars (nc : Nat) : ∀ c ∈ (ncString nc).data, isHexChar c = true := by
  intro c hc
  have hmem : c ∈ padStart8Zero (hexDigits nc) := hc
  unfold padStart8Zero at hmem
  rcases List.mem_append.mp hmem with h1 | h2
  · have := List.eq_of_mem_replicate h1
    subst this
    decide
  · exact hexDigits_all_hex nc c h2

/-- C2: `buildDigestHeader` computes `HA1 = md5(username:realm:password)`,
`HA2 = md5(method:uri)` and `response = md5(HA1:nonce:nc:cnonce:qop:HA2)`
with the MD5 primitive (the 128-bit digest the selected challenge names),
renders `nc` as an 8-hex-digit zero-padded lowercase counter, and embeds
that response value in the assembled header. In this embedding the
response is a pure function of exactly (hash, username, realm, password,
method, uri, nonce, nc, cnonce, qop), hence deterministic once those are
fixed (the random client nonce is the explicit `cnonce` input). -/
theorem buildDigestHeader_spec (md5 : String → String)
    (method uri username password : String) (challenge : DigestChallenge)
    (nc : Nat) (cnonce : String) (hnc : nc < 16 ^ 8) :
    digestResponse md5 method uri username password challenge nc cnonce =
      md5 (md5 (username ++ ":" ++ challenge.realm ++ ":" ++ password) ++ ":" ++
        challenge.nonce ++ ":" ++ ncString nc ++ ":" ++ cnonce ++ ":" ++
        challenge.qop ++ ":" ++ md5 (method ++ ":" ++ uri)) ∧
    (ncString nc).length = 8 ∧
    (∀ c ∈ (ncString nc).data, isHexChar c = true) ∧
    (∃ pre suf : String,
      buildDigestHeader md5 method uri username password challenge nc cnonce =
        pre ++ ("response=\"" ++
          digestResponse md5 method uri username password challenge nc cnonce ++ "\"") ++ suf) := by
  refine ⟨rfl, ncString_length nc hnc, ncString_chars nc, ?_⟩
  cases hop : challenge.opaq with
  | none =>
    refine ⟨joinComma [
        "Digest username=\"" ++ username ++ "\"",
        "realm=\"" ++ challenge.realm ++ "\"",
        "nonce=\"" ++ challenge.nonce ++ "\"",
        "uri=\"" ++ uri ++ "\"",
        "algorithm=MD5",
        "qop=" ++ challenge.qop,
        "nc=" ++ ncString nc,
        "cnonce=\"" ++ cnonce ++ "\""] ++ ", ", "", ?_⟩
    apply String.ext
    simp [buildDigestHeader, hop, joinComma, String.data_append, List.append_assoc]
  | some o =>
    refine ⟨joinComma [
        "Digest username=\"" ++ username ++ "\"",
        "realm=\"" ++ challenge.realm ++ "\"",
        "nonce=\"" ++ challenge.nonce ++ "\"",
        "uri=\"" ++ uri ++ "\"",
        "algorithm=MD5",
        "qop=" ++ challenge.qop,
        "nc=" ++ ncString nc,
        "cnonce=\"" ++ cnonce ++ "\""] ++ ", ",
      ", " ++ ("opaque=\"" ++ o ++ "\""), ?_⟩
    apply String.ext
    simp [buildDigestHeader, hop, joinComma, String.data_append, List.append_assoc]

/-- Witness for C2 at a concrete nonce count (`nc = 1` renders as
`"00000001"`). -/
theorem buildDigestHeader_spec_witness :
    1 < 16 ^ 8 ∧ (ncString 1).length = 8 ∧ ncString 1 = "00000001" := by
  refine ⟨by norm_num, ?_, ?_⟩
  · exact (buildDigestHeader_spec (fun s => s) "GET" "/a" "u" "p"
      { realm := "r", nonce := "n", qop := "auth" } 1 "cn" (by norm_num)).2.1
  · have h1 : hexDigits 1 = ['1'] := by
      rw [hexDigits, dif_pos (by norm_num : (1 : Nat) < 16)]
      decide
    show String.mk (padStart8Zero (hexDigits 1)) = "00000001"
    rw [h1]
    decide

/-! ## C4: challenge selection -/

theorem selectWwwAuth_ok_aux (hs : List String) (x h : String) (hx : x ∈ hs)
    (hok : (if x = "" then (Except.error "Expected digest authentication challenge" :
        Except String String)
      else if strHas (jsToLower x) "digest" then Except.ok x
      else Except.error "Expected digest authentication challenge") = Except.ok h) :
    h ∈ hs ∧ strHas (jsToLower h) "digest" = true := by
  by_cases hxe : x = ""
  · rw [if_pos hxe] at hok
    exact absurd hok (by simp)
  · rw [if_neg hxe] at hok
    by_cases hdig : strHas (jsToLower x) "digest"
    · rw [if_pos hdig] at hok
      have : x = h := Except.ok.inj hok
      subst this
      exact ⟨hx, hdig⟩
    · rw [if_neg hdig] at hok
      exact absurd hok (by simp)

/-- C4 counterexample: the claim says that when no header's algorithm
matches MD5 the poll fails; but with a single SHA-256 Digest challenge the
code falls back to `authHeaders[0]`, accepts it (it contains "digest"),
and the poll proceeds and succeeds. -/
theorem selectWwwAuth_fallback_cex :
    selectWwwAuth ["Digest realm=\"r\", nonce=\"n\", qop=\"auth\", algorithm=SHA-256"]
      = Except.ok "Digest realm=\"r\", nonce=\"n\", qop=\"auth\", algorithm=SHA-256" ∧
    getWanStatusesREST ["X1"] ["Digest realm=\"r\", nonce=\"n\", qop=\"auth\", algorithm=SHA-256"]
      ⟨200, true, RestBody.otherShape⟩ ⟨200, true, RestBody.otherShape⟩ = Except.ok [] := by
  constructor <;> rfl

/-- C4 (amended): the client selects the first `WWW-Authenticate` header
containing the substring "algorithm=MD5" when one exists; otherwise it
falls back to the FIRST header. The poll fails at this step only when no
header is present at all, the selected header is empty, or the selected
header does not contain "digest" case-insensitively; and any header the
step accepts is one of the received headers and is a Digest-type
challenge. -/
theorem selectWwwAuth_amended (hs : List String) :
    (∀ h, hs.find? (fun x => strHas x "algorithm=MD5") = some h → h ≠ "" →
      selectWwwAuth hs =
        (if strHas (jsToLower h) "digest" then Except.ok h
         else Except.error "Expected digest authentication challenge")) ∧
    (hs.find? (fun x => strHas x "algorithm=MD5") = none →
      selectWwwAuth hs =
        (match hs.head? with
         | none => Except.error "Expected digest authentication challenge"
         | some h =>
           if h = "" then Except.error "Expected digest authentication challenge"
           else if strHas (jsToLower h) "digest" then Except.ok h
           else Except.error "Expected digest authentication challenge")) ∧
    (∀ h, selectWwwAuth hs = Except.ok h →
      h ∈ hs ∧ strHas (jsToLower h) "digest" = true) := by
  refine ⟨?_, ?_, ?_⟩
  · intro h hf hne
    simp only [selectWwwAuth, hf, if_neg hne]
  · intro hf
    simp only [selectWwwAuth, hf]
  · intro h hok
    unfold selectWwwAuth at hok
    cases hf : hs.find? (fun x => strHas x "algorithm=MD5") with
    | some g =>
      simp only [hf] at hok
      by_cases hg : g = ""
      · rw [if_pos hg] at hok
        cases hh : hs.head? with
        | none =>
          rw [hh] at hok
          exact absurd hok (by simp)
        | some x =>
          rw [hh] at hok
          exact selectWwwAuth_ok_aux hs x h (List.mem_of_mem_head? (by simp [hh])) hok
      · rw [if_neg hg] at hok
        exact selectWwwAuth_ok_aux hs g h (List.mem_of_find?_eq_some hf) hok
    | none =>
      simp only [hf] at hok
      cases hh : hs.head? with
      | none =>
        rw [hh] at hok
        exact absurd hok (by simp)
      | some x =>
        rw [hh] at hok
        exact selectWwwAuth_ok_aux hs x h (List.mem_of_mem_head? (by simp [hh])) hok

/-- Witness for C4 (amended) on a concrete MD5 challenge. -/
theorem selectWwwAuth_amended_witness :
    selectWwwAuth ["Digest realm=\"r\", algorithm=MD5"]
      = Except.ok "Digest realm=\"r\", algorithm=MD5" ∧
    "Digest realm=\"r\", algorithm=MD5" ∈ ["Digest realm=\"r\", algorithm=MD5"] ∧
    strHas (jsToLower "Digest realm=\"r\", algorithm=MD5") "digest" = true := by
  have h := (selectWwwAuth_amended ["Digest realm=\"r\", algorithm=MD5"]).2.2
    "Digest realm=\"r\", algorithm=MD5" rfl
  exact ⟨rfl, h.1, h.2⟩

/-! ## C8: interface-name invariants of the two acquisition clients -/

theorem restMapRecord_some (wanted : List String) (rec : JsonRec) (r : IspInterfaceStatus)
    (h : restMapRecord wanted rec = some r) :
    ∃ s, keptIdent rec = some s ∧ wanted.contains (jsToUpper s) = true ∧ r.name = jsToUpper s := by
  unfold restMapRecord at h
  cases hk : keptIdent rec with
  | none =>
    rw [hk] at h
    exact absurd h (by simp)
  | some s =>
    rw [hk] at h
    simp only [] at h
    by_cases hc : wanted.contains (jsToUpper s) = true
    · rw [if_pos hc] at h
      refine ⟨s, rfl, hc, ?_⟩
      have hr := Option.some.inj h
      rw [← hr]
    · rw [if_neg hc] at h
      exact absurd h (by simp)

theorem filterMap_subOf {α β : Type} (g g' : α → Option β)
    (hg : ∀ a x, g a = some x → g' a = some x) :
    ∀ l : List α, (l.filterMap g).Sublist (l.filterMap g') := by
  intro l
  induction l with
  | nil => simp
  | cons a l ih =>
    cases hga : g a with
    | none =>
      rw [List.filterMap_cons, hga]
      cases hga' : g' a with
      | none =>
        rw [List.filterMap_cons, hga']
        exact ih
      | some y =>
        rw [List.filterMap_cons, hga']
        exact ih.cons y
    | some x =>
      rw [List.filterMap_cons, hga, List.filterMap_cons, hg a x hga]
      exact ih.cons₂ x

theorem aset_keys {κ β : Type} [DecidableEq κ] (k : κ) (v : β) :
    ∀ (m : List (κ × β)), (aset k v m).map Prod.fst =
      if k ∈ m.map Prod.fst then m.map Prod.fst else m.map Prod.fst ++ [k] := by
  intro m
  induction m with
  | nil => simp [aset]
  | cons p rest ih =>
    obtain ⟨k', w⟩ := p
    by_cases h : k' = k
    · subst h
      simp [aset]
    · simp only [aset, if_neg h, List.map_cons, ih]
      by_cases hmem : k ∈ rest.map Prod.fst
      · rw [if_pos hmem, if_pos (by simp [hmem])]
      · rw [if_neg hmem, if_neg (by simp [hmem]; exact fun hh => h hh.symm)]
        simp

theorem buildIfIndexMapStep_inv (wanted : List String) (m : List (String × Nat)) (vb : Varbind)
    (h1 : (m.map Prod.fst).Nodup)
    (h2 : ∀ nm ∈ m.map Prod.fst, wanted.contains nm = true ∧ jsToUpper nm = nm) :
    ((buildIfIndexMapStep wanted m vb).map Prod.fst).Nodup ∧
    (∀ nm ∈ (buildIfIndexMapStep wanted m vb).map Prod.fst,
      wanted.contains nm = true ∧ jsToUpper nm = nm) := by
  unfold buildIfIndexMapStep
  by_cases hnull : vb.value = SnmpValue.null
  · rw [if_pos hnull]
    exact ⟨h1, h2⟩
  · rw [if_neg hnull]
    cases hp : parseIfName (snmpToString vb.value) with
    | none => exact ⟨h1, h2⟩
    | some nm0 =>
      simp only []
      by_cases hc : wanted.contains (jsToUpper nm0) = true
      · rw [if_pos hc]
        have hkeys := aset_keys (jsToUpper nm0) ((vb.oid.getLast?).getD 0) m
        by_cases hmem : jsToUpper nm0 ∈ m.map Prod.fst
        · rw [if_pos hmem] at hkeys
          rw [hkeys]
          exact ⟨h1, h2⟩
        · rw [if_neg hmem] at hkeys
          rw [hkeys]
          constructor
          · rw [List.nodup_append]
            refine ⟨h1, by simp, ?_⟩
            intro a ha hb
            simp at hb
            subst hb
            exact hmem ha
          · intro nm hmem2
            rcases List.mem_append.mp hmem2 with hA | hB
            · exact h2 nm hA
            · simp at hB
              subst hB
              exact ⟨hc, jsToUpper_idem nm0⟩
      · rw [if_neg hc]
        exact ⟨h1, h2⟩

theorem buildIfIndexMap_inv (wanted : List String) :
    ∀ (walk : List Varbind) (m : List (String × Nat)),
      (m.map Prod.fst).Nodup →
      (∀ nm ∈ m.map Prod.fst, wanted.contains nm = true ∧ jsToUpper nm = nm) →
      ((walk.foldl (buildIfIndexMapStep wanted) m).map Prod.fst).Nodup ∧
      (∀ nm ∈ (walk.foldl (buildIfIndexMapStep wanted) m).map Prod.fst,
        wanted.contains nm = true ∧ jsToUpper nm = nm) := by
  intro walk
  induction walk with
  | nil => intro m h1 h2; exact ⟨h1, h2⟩
  | cons vb rest ih =>
    intro m h1 h2
    simp only [List.foldl_cons]
    have h := buildIfIndexMapStep_inv wanted m vb h1 h2
    exact ih (buildIfIndexMapStep wanted m vb) h.1 h.2

theorem snmp_statuses_names (wanted : List String)
    (ifDescrWalk ipAddrWalk ipIdxWalk ipMaskWalk results : List Varbind)
    (statuses : List IspInterfaceStatus)
    (h : getWanStatusesViaSNMP wanted ifDescrWalk ipAddrWalk ipIdxWalk ipMaskWalk results
      = Except.ok statuses) :
    statuses.map IspInterfaceStatus.name
      = (buildIfIndexMap wanted ifDescrWalk).map Prod.fst := by
  unfold getWanStatusesViaSNMP at h
  by_cases hm : (buildIfIndexMap wanted ifDescrWalk).isEmpty
  · rw [if_pos hm] at h
    exact absurd h (by simp)
  · rw [if_neg hm] at h
    have heq := Except.ok.inj h
    subst heq
    rw [List.map_map]
    have hcomp : (IspInterfaceStatus.name ∘ fun p : Nat × (String × Nat) =>
        mkSnmpStatus (buildIpMap ipAddrWalk ipIdxWalk ipMaskWalk) results
          (buildIfIndexMap wanted ifDescrWalk).length p.1 p.2.1 p.2.2)
        = (Prod.fst ∘ Prod.snd) := rfl
    rw [hcomp, ← List.map_map, List.enum_map_snd]

/-- C8 counterexample: the REST mapper never deduplicates, so two
upstream records carrying (case-insensitively) the same identifier yield
two result records with the same `name` in one poll result, violating the
claimed uniqueness. -/
theorem rest_names_duplicate_cex :
    ((restMapRecords ["X1"] [{ name := some "x1" }, { name := some "X1" }]).map
      IspInterfaceStatus.name) = ["X1", "X1"] ∧
    ¬ ((restMapRecords ["X1"] [{ name := some "x1" }, { name := some "X1" }]).map
      IspInterfaceStatus.name).Nodup := by
  constructor
  · rfl
  · intro hn
    have : ¬ (["X1", "X1"] : List String).Nodup := by simp
    exact this (by rwa [show ((restMapRecords ["X1"] [{ name := some "x1" }, { name := some "X1" }]).map
      IspInterfaceStatus.name) = ["X1", "X1"] from rfl] at hn)

/-- C8 (amended): in every poll result of either client, each name is one
of the configured wanted identifiers (`wanted.contains name`) and is
uppercase (uppercasing is a no-op on it). Names are unique within one
SNMP poll result (they are the keys of the name→index map); for the REST
client uniqueness additionally requires the upstream records' kept,
uppercased identifiers to be distinct — duplicate upstream records
produce duplicate names. -/
theorem statuses_names_wellformed :
    (∀ (wanted : List String) (records : List JsonRec) (r : IspInterfaceStatus),
      r ∈ restMapRecords wanted records →
      wanted.contains r.name = true ∧ jsToUpper r.name = r.name) ∧
    (∀ (wanted : List String) (records : List JsonRec),
      (records.filterMap (fun rec => (keptIdent rec).map jsToUpper)).Nodup →
      ((restMapRecords wanted records).map IspInterfaceStatus.name).Nodup) ∧
    (∀ (wanted : List String)
      (ifDescrWalk ipAddrWalk ipIdxWalk ipMaskWalk results : List Varbind)
      (statuses : List IspInterfaceStatus),
      getWanStatusesViaSNMP wanted ifDescrWalk ipAddrWalk ipIdxWalk ipMaskWalk results
        = Except.ok statuses →
      (statuses.map IspInterfaceStatus.name).Nodup ∧
      (∀ nm ∈ statuses.map IspInterfaceStatus.name,
        wanted.contains nm = true ∧ jsToUpper nm = nm)) := by
  refine ⟨?_, ?_, ?_⟩
  · intro wanted records r hr
    rcases List.mem_filterMap.mp hr with ⟨rec, _, hrec⟩
    rcases restMapRecord_some wanted rec r hrec with ⟨s, _, hc, hname⟩
    rw [hname]
    exact ⟨hc, jsToUpper_idem s⟩
  · intro wanted records hnd
    have hmap : (restMapRecords wanted records).map IspInterfaceStatus.name
        = records.filterMap (fun rec => (restMapRecord wanted rec).map IspInterfaceStatus.name) :=
      List.map_filterMap _ _ _
    rw [hmap]
    refine List.Nodup.sublist (filterMap_subOf _ _ ?_ records) hnd
    intro rec x hx
    rcases Option.map_eq_some'.mp hx with ⟨r, hr, hxname⟩
    rcases restMapRecord_some wanted rec r hr with ⟨s, hks, _, hname⟩
    rw [hks]
    simp only [Option.map_some']
    rw [← hxname, hname]
  · intro wanted ifDescrWalk ipAddrWalk ipIdxWalk ipMaskWalk results statuses h
    rw [snmp_statuses_names wanted ifDescrWalk ipAddrWalk ipIdxWalk ipMaskWalk results statuses h]
    have hinv := buildIfIndexMap_inv wanted ifDescrWalk [] (by simp) (by simp)
    exact hinv

/-- Witness for C8 (amended) on a concrete record kept by the mapper. -/
theorem statuses_names_wellformed_witness :
    ({ name := "X1", linkUp := some true } : IspInterfaceStatus)
      ∈ restMapRecords ["X1"] [{ name := some "x1", link_status := some "up" }] ∧
    (["X1"].contains "X1" = true ∧ jsToUpper "X1" = "X1") := by
  have hmem : ({ name := "X1", linkUp := some true } : IspInterfaceStatus)
      ∈ restMapRecords ["X1"] [{ name := some "x1", link_status := some "up" }] := by
    show _ ∈ restMapRecords _ _
    rw [show restMapRecords ["X1"] [{ name := some "x1", link_status := some "up" }]
      = [{ name := "X1", linkUp := some true }] from rfl]
    simp
  exact ⟨hmem, statuses_names_wellformed.1 ["X1"]
    [{ name := some "x1", link_status := some "up" }] { name := "X1", linkUp := some true } hmem⟩
